import Mathlib

/-!
Verification of the Confluence MCP server's client layer (`src/confluence.ts`,
`src/tools.ts`) against its natural-language specification.

Text is modelled as `List Char`.  Regex-based replacements are modelled as
left-to-right scanners with greedy (maximal-munch) sub-matches, which is
equivalent to the JavaScript behaviour for the patterns involved because the
character classes of adjacent quantified sub-patterns are disjoint, so
backtracking can never produce a match that maximal munch misses.
-/

-- ## Basic text utilities ------------------------------------------------------

/-- `isPrefOf p l` : `p` is a prefix of `l`. -/
def isPrefOf : List Char → List Char → Bool
  | [], _ => true
  | _ :: _, [] => false
  | a :: as, b :: bs => a = b && isPrefOf as bs

/-- `containsSub p l` : `p` occurs as a contiguous substring of `l`. -/
def containsSub (pat : List Char) : List Char → Bool
  | [] => isPrefOf pat []
  | c :: rest => isPrefOf pat (c :: rest) || containsSub pat rest

theorem isPrefOf_append_right (p l y : List Char) (h : isPrefOf p l = true) :
    isPrefOf p (l ++ y) = true := by
  induction p generalizing l with
  | nil => simp [isPrefOf]
  | cons a as ih =>
    cases l with
    | nil => simp [isPrefOf] at h
    | cons b bs =>
      simp only [isPrefOf, Bool.and_eq_true] at h ⊢
      exact ⟨h.1, ih bs h.2⟩

theorem isPrefOf_refl (p : List Char) : isPrefOf p p = true := by
  induction p with
  | nil => rfl
  | cons a as ih => simp [isPrefOf, ih]

theorem containsSub_of_pref (p l : List Char) (h : isPrefOf p l = true) :
    containsSub p l = true := by
  cases l with
  | nil => simpa [containsSub] using h
  | cons c rest => simp [containsSub, h]

theorem containsSub_append_left (p x l : List Char) (h : containsSub p l = true) :
    containsSub p (x ++ l) = true := by
  induction x with
  | nil => simpa using h
  | cons c cs ih => simp [containsSub, ih]

theorem containsSub_append_right (p l y : List Char) (h : containsSub p l = true) :
    containsSub p (l ++ y) = true := by
  induction l with
  | nil =>
    simp only [containsSub] at h
    exact containsSub_of_pref _ _ (isPrefOf_append_right _ _ _ h)
  | cons c rest ih =>
    simp only [containsSub, Bool.or_eq_true] at h ⊢
    cases h with
    | inl h => exact Or.inl (isPrefOf_append_right _ _ _ h)
    | inr h => exact Or.inr (ih h)

theorem containsSub_self_append (p y : List Char) :
    containsSub p (p ++ y) = true :=
  containsSub_of_pref _ _ (isPrefOf_append_right _ _ _ (isPrefOf_refl p))

-- ## HTTP transport retry policy (`fetchWithRetry`) ---------------------------

/-- Outcome of one `fetch` attempt: either a response with an HTTP status, or a
network/timeout fault raised before a response was received. -/
inductive AttemptOutcome where
  | response (status : Nat)
  | fault
deriving DecidableEq

def MAX_RETRIES : Nat := 2

def BASE_DELAY_MS : Nat := 500

/-- An attempt is retryable when it is a 5xx response or a network fault. -/
def retryableOutcome : AttemptOutcome → Bool
  | .response s => 500 ≤ s
  | .fault => true

/-- Trace of a `fetchWithRetry` run: the final result (`ok status` for a
returned response, `error msg` for the generic thrown failure), the total
number of `fetch` attempts performed, and the list of backoff delays slept. -/
structure FetchTrace where
  result : Except (List Char) Nat
  attempts : Nat
  delays : List Nat

/-- Shallow embedding of `fetchWithRetry` from `src/confluence.ts`.  `att k` is
the outcome of the `k`-th fetch attempt (0-indexed).  Note that the recursive
call in the JavaScript source is `return fetchWithRetry(...)` without `await`,
so a rejection of the recursive call is NOT intercepted by the enclosing
`catch`; the recursion below therefore simply propagates the inner result. -/
def fetchWithRetry (att : Nat → AttemptOutcome) : Nat → Nat → FetchTrace
  | retriesLeft, idx =>
    match retriesLeft, att idx with
    | r + 1, .response s =>
      if 500 ≤ s then
        let d := BASE_DELAY_MS * 2 ^ (MAX_RETRIES - (r + 1))
        let t := fetchWithRetry att r (idx + 1)
        ⟨t.result, t.attempts + 1, d :: t.delays⟩
      else ⟨.ok s, 1, []⟩
    | 0, .response s => ⟨.ok s, 1, []⟩
    | r + 1, .fault =>
      let d := BASE_DELAY_MS * 2 ^ (MAX_RETRIES - (r + 1))
      let t := fetchWithRetry att r (idx + 1)
      ⟨t.result, t.attempts + 1, d :: t.delays⟩
    | 0, .fault => ⟨.error "Request failed after retries".toList, 1, []⟩

/-- Entry point: `fetchWithRetry(url, init)` with the default `retriesLeft`. -/
def fetchWithRetryTop (att : Nat → AttemptOutcome) : FetchTrace :=
  fetchWithRetry att MAX_RETRIES 0


def delaySched : Nat → List Nat
  | 0 => []
  | r + 1 => BASE_DELAY_MS * 2 ^ (MAX_RETRIES - (r + 1)) :: delaySched r

theorem fwrStep5xx (att : Nat → AttemptOutcome) (r idx s : Nat)
    (h : att idx = .response s) (hs : 500 ≤ s) :
    fetchWithRetry att (r + 1) idx =
      ⟨(fetchWithRetry att r (idx + 1)).result,
       (fetchWithRetry att r (idx + 1)).attempts + 1,
       BASE_DELAY_MS * 2 ^ (MAX_RETRIES - (r + 1)) ::
         (fetchWithRetry att r (idx + 1)).delays⟩ := by
  simp [fetchWithRetry, h, hs]

theorem fwrStepFault (att : Nat → AttemptOutcome) (r idx : Nat)
    (h : att idx = .fault) :
    fetchWithRetry att (r + 1) idx =
      ⟨(fetchWithRetry att r (idx + 1)).result,
       (fetchWithRetry att r (idx + 1)).attempts + 1,
       BASE_DELAY_MS * 2 ^ (MAX_RETRIES - (r + 1)) ::
         (fetchWithRetry att r (idx + 1)).delays⟩ := by
  simp [fetchWithRetry, h]

theorem fwrStop (att : Nat → AttemptOutcome) (r idx s : Nat)
    (ha : att idx = .response s) (hs : s < 500) :
    fetchWithRetry att r idx = ⟨.ok s, 1, []⟩ := by
  cases r with
  | zero => simp [fetchWithRetry, ha]
  | succ r => simp [fetchWithRetry, ha, Nat.not_le_of_lt hs]

theorem fwrFaultZero (att : Nat → AttemptOutcome) (idx : Nat)
    (ha : att idx = .fault) :
    fetchWithRetry att 0 idx = ⟨.error "Request failed after retries".toList, 1, []⟩ := by
  simp [fetchWithRetry, ha]

theorem fetchWithRetry_attempts_pos (att : Nat → AttemptOutcome) (r idx : Nat) :
    1 ≤ (fetchWithRetry att r idx).attempts := by
  cases r with
  | zero => cases h : att idx <;> simp [fetchWithRetry, h]
  | succ r =>
    cases h : att idx with
    | response s =>
      by_cases hs : 500 ≤ s
      · rw [fwrStep5xx att r idx s h hs]
        simp
      · rw [fwrStop att (r + 1) idx s h (by omega)]
    | fault =>
      rw [fwrStepFault att r idx h]
      simp

theorem fetchWithRetry_attempts_le (att : Nat → AttemptOutcome) (r idx : Nat) :
    (fetchWithRetry att r idx).attempts ≤ r + 1 := by
  induction r generalizing idx with
  | zero => cases h : att idx <;> simp [fetchWithRetry, h]
  | succ r ih =>
    cases h : att idx with
    | response s =>
      by_cases hs : 500 ≤ s
      · rw [fwrStep5xx att r idx s h hs]
        have := ih (idx + 1)
        simpa using this
      · rw [fwrStop att (r + 1) idx s h (by omega)]
        simp
    | fault =>
      rw [fwrStepFault att r idx h]
      have := ih (idx + 1)
      simpa using this

theorem fetchWithRetry_retryable_before (att : Nat → AttemptOutcome) (r : Nat) :
    ∀ idx i, i + 1 < (fetchWithRetry att r idx).attempts →
    retryableOutcome (att (idx + i)) = true := by
  induction r with
  | zero =>
    intro idx i h
    exfalso
    cases ha : att idx <;> simp [fetchWithRetry, ha] at h
  | succ r ih =>
    intro idx i h
    cases ha : att idx with
    | response s =>
      by_cases hs : 500 ≤ s
      · rw [fwrStep5xx att r idx s ha hs] at h
        cases i with
        | zero => simpa [retryableOutcome, ha] using hs
        | succ j =>
          have heq : idx + (j + 1) = (idx + 1) + j := by omega
          rw [heq]
          exact ih (idx + 1) j (by simpa using h)
      · rw [fwrStop att (r + 1) idx s ha (by omega)] at h
        simp at h
    | fault =>
      rw [fwrStepFault att r idx ha] at h
      cases i with
      | zero => simp [retryableOutcome, ha]
      | succ j =>
        have heq : idx + (j + 1) = (idx + 1) + j := by omega
        rw [heq]
        exact ih (idx + 1) j (by simpa using h)

theorem fetchWithRetry_delays (att : Nat → AttemptOutcome) (r : Nat) :
    ∀ idx, (fetchWithRetry att r idx).delays =
      (delaySched r).take ((fetchWithRetry att r idx).attempts - 1) := by
  induction r with
  | zero =>
    intro idx
    cases h : att idx <;> simp [fetchWithRetry, h, delaySched]
  | succ r ih =>
    intro idx
    cases h : att idx with
    | response s =>
      by_cases hs : 500 ≤ s
      · rw [fwrStep5xx att r idx s h hs]
        have h1 := fetchWithRetry_attempts_pos att r (idx + 1)
        simp only [delaySched]
        have h2 : (fetchWithRetry att r (idx + 1)).attempts + 1 - 1 =
            ((fetchWithRetry att r (idx + 1)).attempts - 1) + 1 := by omega
        rw [h2, List.take_succ_cons]
        exact congrArg _ (ih (idx + 1))
      · rw [fwrStop att (r + 1) idx s h (by omega)]
        simp
    | fault =>
      rw [fwrStepFault att r idx h]
      have h1 := fetchWithRetry_attempts_pos att r (idx + 1)
      simp only [delaySched]
      have h2 : (fetchWithRetry att r (idx + 1)).attempts + 1 - 1 =
          ((fetchWithRetry att r (idx + 1)).attempts - 1) + 1 := by omega
      rw [h2, List.take_succ_cons]
      exact congrArg _ (ih (idx + 1))

theorem fetchWithRetry_first_non5xx (att : Nat → AttemptOutcome) (i : Nat) :
    ∀ r idx s, i ≤ r → (∀ j, j < i → retryableOutcome (att (idx + j)) = true) →
    att (idx + i) = .response s → s < 500 →
    (fetchWithRetry att r idx).result = .ok s ∧
      (fetchWithRetry att r idx).attempts = i + 1 := by
  induction i with
  | zero =>
    intro r idx s _ _ ha hs
    rw [fwrStop att r idx s (by simpa using ha) hs]
    exact ⟨rfl, rfl⟩
  | succ i ih =>
    intro r idx s hir hbef ha hs
    obtain ⟨r', rfl⟩ : ∃ r', r = r' + 1 := ⟨r - 1, by omega⟩
    have h0 : retryableOutcome (att idx) = true := by
      simpa using hbef 0 (by omega)
    have hshift : ∀ j, j < i → retryableOutcome (att ((idx + 1) + j)) = true := by
      intro j hj
      have heq : (idx + 1) + j = idx + (j + 1) := by omega
      rw [heq]
      exact hbef (j + 1) (by omega)
    have ha' : att ((idx + 1) + i) = .response s := by
      have heq : (idx + 1) + i = idx + (i + 1) := by omega
      rw [heq]
      exact ha
    have hrec := ih r' (idx + 1) s (by omega) hshift ha' hs
    cases hat : att idx with
    | response s0 =>
      have hs0 : 500 ≤ s0 := by
        rw [hat] at h0
        simpa [retryableOutcome] using h0
      rw [fwrStep5xx att r' idx s0 hat hs0]
      exact ⟨hrec.1, by rw [hrec.2]⟩
    | fault =>
      rw [fwrStepFault att r' idx hat]
      exact ⟨hrec.1, by rw [hrec.2]⟩

theorem fetchWithRetry_all_faults (att : Nat → AttemptOutcome) (r : Nat) :
    ∀ idx, (∀ j, j ≤ r → att (idx + j) = .fault) →
    fetchWithRetry att r idx =
      ⟨.error "Request failed after retries".toList, r + 1, delaySched r⟩ := by
  induction r with
  | zero =>
    intro idx h
    have h0 : att idx = .fault := by simpa using h 0 (by omega)
    rw [fwrFaultZero att idx h0]
    rfl
  | succ r ih =>
    intro idx h
    have h0 : att idx = .fault := by simpa using h 0 (by omega)
    have hrec := ih (idx + 1) (fun j hj => by
      have heq : (idx + 1) + j = idx + (j + 1) := by omega
      rw [heq]
      exact h (j + 1) (by omega))
    rw [fwrStepFault att r idx h0, hrec]
    simp [delaySched]

/-- C1: the HTTP transport performs at most 3 fetch attempts; an additional
attempt happens only after a 5xx response or a network/timeout fault; the
backoff delays are 500ms before the second attempt and 1000ms before the
third; a 4xx response is returned from the first attempt producing it with no
further attempts; and three consecutive faults surface the generic
"Request failed after retries" condition. -/
theorem claim_C1_retry_policy (att : Nat → AttemptOutcome) :
    (fetchWithRetryTop att).attempts ≤ 3 ∧
    (∀ i, i + 1 < (fetchWithRetryTop att).attempts → retryableOutcome (att i) = true) ∧
    (fetchWithRetryTop att).delays = [500, 1000].take ((fetchWithRetryTop att).attempts - 1) ∧
    (∀ i s, i ≤ 2 → (∀ j, j < i → retryableOutcome (att j) = true) →
      att i = .response s → 400 ≤ s → s < 500 →
      (fetchWithRetryTop att).result = .ok s ∧ (fetchWithRetryTop att).attempts = i + 1) ∧
    ((∀ j, j ≤ 2 → att j = .fault) →
      (fetchWithRetryTop att).result = .error "Request failed after retries".toList ∧
      (fetchWithRetryTop att).attempts = 3) := by
  refine ⟨?_, ?_, ?_, ?_, ?_⟩
  · exact fetchWithRetry_attempts_le att MAX_RETRIES 0
  · intro i hi
    have := fetchWithRetry_retryable_before att MAX_RETRIES 0 i hi
    simpa using this
  · have h := fetchWithRetry_delays att MAX_RETRIES 0
    have hsched : delaySched MAX_RETRIES = [500, 1000] := by decide
    rw [fetchWithRetryTop, h, hsched]
  · intro i s hi hbefore ha _ hs
    have hb : ∀ j, j < i → retryableOutcome (att (0 + j)) = true := by
      intro j hj
      simpa using hbefore j hj
    exact fetchWithRetry_first_non5xx att i MAX_RETRIES 0 s hi hb (by simpa using ha) hs
  · intro h
    have hfa := fetchWithRetry_all_faults att MAX_RETRIES 0 (fun j hj => by simpa using h j hj)
    rw [fetchWithRetryTop, hfa]
    exact ⟨rfl, by decide⟩

/-- Concrete instantiation of C1: attempts 503, fault, 404 make exactly three
fetches, sleep 500ms then 1000ms, and return the 404 response. -/
theorem claim_C1_retry_policy_witness :
    (fetchWithRetryTop (fun i =>
        if i = 0 then .response 503 else if i = 1 then .fault else .response 404)).result =
      .ok 404 ∧
    (fetchWithRetryTop (fun i =>
        if i = 0 then .response 503 else if i = 1 then .fault else .response 404)).attempts = 3 ∧
    (fetchWithRetryTop (fun i =>
        if i = 0 then .response 503 else if i = 1 then .fault else .response 404)).delays =
      [500, 1000] := by
  have h := claim_C1_retry_policy (fun i =>
    if i = 0 then .response 503 else if i = 1 then .fault else .response 404)
  have h4 := h.2.2.2.1 2 404 (by omega) (by decide) (by decide) (by omega) (by omega)
  refine ⟨h4.1, h4.2, ?_⟩
  rw [h.2.2.1, h4.2]
  decide

-- ## Error sanitization (`sanitize`, `ConfluenceApiError`) ---------------------

/-- Character class `[A-Za-z0-9+/=]` of the Basic-credential regex. -/
def isB64Char (c : Char) : Bool :=
  let n := c.toNat
  (65 ≤ n && n ≤ 90) || (97 ≤ n && n ≤ 122) || (48 ≤ n && n ≤ 57) ||
    n = 43 || n = 47 || n = 61

/-- JavaScript regex `\s` (WhiteSpace plus LineTerminator code points). -/
def isJsWS (c : Char) : Bool :=
  let n := c.toNat
  n = 9 || n = 10 || n = 11 || n = 12 || n = 13 || n = 32 || n = 160 || n = 5760 ||
    (8192 ≤ n && n ≤ 8202) || n = 8232 || n = 8233 || n = 8239 || n = 8287 ||
    n = 12288 || n = 65279

def lowerChar (c : Char) : Char :=
  if 65 ≤ c.toNat && c.toNat ≤ 90 then Char.ofNat (c.toNat + 32) else c

/-- Case-insensitive literal match; returns the text after the keyword. -/
def matchKeywordCI : List Char → List Char → Option (List Char)
  | [], l => some l
  | _ :: _, [] => none
  | k :: ks, c :: cs => if lowerChar c = lowerChar k then matchKeywordCI ks cs else none

/-- Greedy run of characters satisfying `p`: its length and the rest. -/
def takeRun (p : Char → Bool) : List Char → Nat × List Char
  | [] => (0, [])
  | c :: cs => if p c then let t := takeRun p cs; (t.1 + 1, t.2) else (0, c :: cs)

/-- Length of the (greedy) match of `/Basic\s+[A-Za-z0-9+\/=]+/i` at the head
of `l`, if any.  Greedy maximal munch is exact here because `\s` and the
base64 class are disjoint, so regex backtracking can never succeed where
maximal munch fails. -/
def basicMatchLen (l : List Char) : Option Nat :=
  match matchKeywordCI "basic".toList l with
  | none => none
  | some rest =>
    let ws := takeRun isJsWS rest
    if ws.1 = 0 then none else
    let b64 := takeRun isB64Char ws.2
    if b64.1 = 0 then none else some (5 + ws.1 + b64.1)

/-- Length of the (greedy) match of `/Bearer\s+\S+/i` at the head of `l`. -/
def bearerMatchLen (l : List Char) : Option Nat :=
  match matchKeywordCI "bearer".toList l with
  | none => none
  | some rest =>
    let ws := takeRun isJsWS rest
    if ws.1 = 0 then none else
    let tok := takeRun (fun c => !isJsWS c) ws.2
    if tok.1 = 0 then none else some (6 + ws.1 + tok.1)

/-- Left-to-right global replacement, as `String.prototype.replace` with a
`/g` regex: at each position try a match; on success emit the replacement and
resume after the matched text (all matches here are non-empty).  The fuel is
an upper bound on the number of scanning steps; `replaceScan` supplies the
input length, which suffices since every step consumes at least one input
character. -/
def replaceScanAux (matchLen : List Char → Option Nat) (repl : List Char) :
    Nat → List Char → List Char
  | _, [] => []
  | 0, l => l
  | fuel + 1, c :: cs =>
    match matchLen (c :: cs) with
    | some n => repl ++ replaceScanAux matchLen repl fuel (cs.drop (n - 1))
    | none => c :: replaceScanAux matchLen repl fuel cs

def replaceScan (matchLen : List Char → Option Nat) (repl l : List Char) : List Char :=
  replaceScanAux matchLen repl l.length l

/-- `sanitize` from `src/confluence.ts`: redact `Basic <base64>` first, then
`Bearer <token>` in the result. -/
def sanitize (l : List Char) : List Char :=
  replaceScan bearerMatchLen "Bearer ***".toList
    (replaceScan basicMatchLen "Basic ***".toList l)

def friendlyStatus (status : Nat) : List Char :=
  if status = 400 then "Invalid request parameters".toList
  else if status = 401 then "Authentication failed".toList
  else if status = 403 then "Permission denied for current user".toList
  else if status = 404 then "Requested Confluence resource was not found".toList
  else if status = 409 then "Version conflict - retry with latest version".toList
  else "Confluence API error".toList

def digitChar (d : Nat) : Char := Char.ofNat (48 + d)

def natToTextAux : Nat → Nat → List Char → List Char
  | 0, _, acc => acc
  | fuel + 1, n, acc =>
    if n < 10 then digitChar n :: acc
    else natToTextAux fuel (n / 10) (digitChar (n % 10) :: acc)

def natToText (n : Nat) : List Char := natToTextAux (n + 1) n []

/-- The `message` of a `ConfluenceApiError`:
`friendly (HTTP status statusText): sanitize(body)`. -/
def apiErrorMessage (status : Nat) (statusText body : List Char) : List Char :=
  friendlyStatus status ++ " (HTTP ".toList ++ natToText status ++ [' '] ++
    statusText ++ "): ".toList ++ sanitize body

/-- C2 is refuted by the code: in the body `"Basic Bearer secret123"` the
substring `"Bearer secret123"` matches the `Bearer <token>` pattern, yet the
Basic-redaction pass (which runs first) consumes the literal `Bearer` as its
base64 payload, so the thrown error's message surfaces the token `secret123`
unredacted and contains no `Bearer ***`.  The spec's own positive example
(`Basic QWxhZGRpbjpvcGVuc2VzYW1l` becomes `Basic ***`) does hold. -/
theorem claim_C2_sanitize_leak :
    sanitize "Basic Bearer secret123".toList = "Basic *** secret123".toList ∧
    bearerMatchLen "Bearer secret123".toList = some 16 ∧
    containsSub "Bearer secret123".toList "Basic Bearer secret123".toList = true ∧
    containsSub "secret123".toList
      (apiErrorMessage 400 "Bad Request".toList "Basic Bearer secret123".toList) = true ∧
    containsSub "Bearer ***".toList
      (apiErrorMessage 400 "Bad Request".toList "Basic Bearer secret123".toList) = false ∧
    sanitize "err Basic QWxhZGRpbjpvcGVuc2VzYW1l x".toList = "err Basic *** x".toList := by
  refine ⟨by decide, by decide, by decide, by decide, by decide, by decide⟩

-- ## Authentication resolution (`resolveAuthHeader`) ---------------------------

inductive ConfluenceMode where
  | cloud
  | server
deriving DecidableEq

inductive ConfluenceAuthMode where
  | auto
  | basic
  | bearer
deriving DecidableEq

inductive ResolvedAuthMode where
  | basic
  | bearer
deriving DecidableEq

/-- UTF-8 encoding of one Unicode scalar value (`Buffer.from` uses UTF-8). -/
def utf8Char (c : Char) : List Nat :=
  let n := c.toNat
  if n < 128 then [n]
  else if n < 2048 then [192 + n / 64, 128 + n % 64]
  else if n < 65536 then [224 + n / 4096, 128 + n / 64 % 64, 128 + n % 64]
  else [240 + n / 262144, 128 + n / 4096 % 64, 128 + n / 64 % 64, 128 + n % 64]

def utf8Encode (l : List Char) : List Nat := (l.map utf8Char).flatten

def b64Alphabet : List Char :=
  "ABCDEFGHIJKLMNOPQRSTUVWXYZabcdefghijklmnopqrstuvwxyz0123456789+/".toList

def b64Char (n : Nat) : Char := b64Alphabet.getD n 'A'

/-- RFC 4648 base64 of a byte sequence, with `=` padding
(`Buffer.prototype.toString("base64")`). -/
def base64Encode : List Nat → List Char
  | [] => []
  | [b1] => [b64Char (b1 / 4), b64Char (b1 % 4 * 16), '=', '=']
  | [b1, b2] => [b64Char (b1 / 4), b64Char (b1 % 4 * 16 + b2 / 16), b64Char (b2 % 16 * 4), '=']
  | b1 :: b2 :: b3 :: rest =>
    b64Char (b1 / 4) :: b64Char (b1 % 4 * 16 + b2 / 16) ::
      b64Char (b2 % 16 * 4 + b3 / 64) :: b64Char (b3 % 64) :: base64Encode rest

structure AuthInput where
  mode : ConfluenceMode
  authMode : ConfluenceAuthMode
  username : Option (List Char)
  token : Option (List Char)
  password : Option (List Char)

structure AuthOutput where
  username : Option (List Char)
  authHeader : List Char
  resolvedAuthMode : ResolvedAuthMode
deriving DecidableEq

/-- `requireValue` from `src/confluence.ts`: rejects `undefined` and the empty
string (JavaScript falsiness); `fatalConfig` is modelled as `Except.error`. -/
def requireValue (v : Option (List Char)) (msg : List Char) :
    Except (List Char) (List Char) :=
  match v with
  | none => .error msg
  | some s => if s = [] then .error msg else .ok s

/-- JavaScript truthiness of a `string | undefined` value. -/
def truthy (v : Option (List Char)) : Bool :=
  match v with
  | none => false
  | some s => !s.isEmpty

/-- Shallow embedding of `resolveAuthHeader` from `src/confluence.ts`. -/
def resolveAuthHeader (input : AuthInput) : Except (List Char) AuthOutput :=
  match input.mode with
  | .cloud =>
    match requireValue input.username "CONF_USERNAME is required in cloud mode.".toList with
    | .error e => .error e
    | .ok user =>
      let secret := match input.token with
        | some t => some t
        | none => input.password
      match requireValue secret
          "Cloud mode requires CONF_TOKEN (preferred) or CONF_PASSWORD.".toList with
      | .error e => .error e
      | .ok credential =>
        .ok ⟨some user,
          "Basic ".toList ++ base64Encode (utf8Encode (user ++ ':' :: credential)),
          .basic⟩
  | .server =>
    match input.authMode with
    | .bearer =>
      match requireValue input.token "CONF_AUTH_MODE=bearer requires CONF_TOKEN.".toList with
      | .error e => .error e
      | .ok token => .ok ⟨input.username, "Bearer ".toList ++ token, .bearer⟩
    | .basic =>
      match requireValue input.username
          "CONF_AUTH_MODE=basic requires CONF_USERNAME.".toList with
      | .error e => .error e
      | .ok user =>
        let secret := match input.password with
          | some p => some p
          | none => input.token
        match requireValue secret
            "CONF_AUTH_MODE=basic requires CONF_PASSWORD (or CONF_TOKEN as password).".toList with
        | .error e => .error e
        | .ok credential =>
          .ok ⟨some user,
            "Basic ".toList ++ base64Encode (utf8Encode (user ++ ':' :: credential)),
            .basic⟩
    | .auto =>
      if truthy input.token then
        .ok ⟨input.username, "Bearer ".toList ++ input.token.getD [], .bearer⟩
      else if truthy input.password then
        match requireValue input.username
            "Server auto mode with CONF_PASSWORD requires CONF_USERNAME.".toList with
        | .error e => .error e
        | .ok user =>
          .ok ⟨some user,
            "Basic ".toList ++ base64Encode (utf8Encode (user ++ ':' :: input.password.getD [])),
            .basic⟩
      else
        .error "Server mode requires CONF_TOKEN (Bearer) or CONF_USERNAME + CONF_PASSWORD.".toList

/-- C3: in cloud mode with username `U` and token `T` (any password present or
not, any configured auth mode) the produced header is `Basic base64(U:T)` with
the token preferred as the secret; in server mode with `authMode=auto` and a
token `T` present the produced header is `Bearer T`. -/
theorem claim_C3_auth_resolution (am : ConfluenceAuthMode) (U T : List Char)
    (pw un : Option (List Char)) (hU : U ≠ []) (hT : T ≠ []) :
    resolveAuthHeader ⟨.cloud, am, some U, some T, pw⟩ =
      .ok ⟨some U, "Basic ".toList ++ base64Encode (utf8Encode (U ++ ':' :: T)), .basic⟩ ∧
    resolveAuthHeader ⟨.server, .auto, un, some T, pw⟩ =
      .ok ⟨un, "Bearer ".toList ++ T, .bearer⟩ := by
  constructor
  · simp [resolveAuthHeader, requireValue, hU, hT]
  · have ht : truthy (some T) = true := by
      cases T with
      | nil => exact absurd rfl hT
      | cons c cs => simp [truthy]
    simp [resolveAuthHeader, ht]

/-- Concrete instantiation of C3, on the RFC 2617 example credentials; the
token is preferred even though a password is also present. -/
theorem claim_C3_auth_resolution_witness :
    resolveAuthHeader ⟨.cloud, .auto, some "Aladdin".toList, some "open sesame".toList,
        some "ignored".toList⟩ =
      .ok ⟨some "Aladdin".toList, "Basic QWxhZGRpbjpvcGVuIHNlc2FtZQ==".toList, .basic⟩ ∧
    resolveAuthHeader ⟨.server, .auto, none, some "tok123".toList, none⟩ =
      .ok ⟨none, "Bearer tok123".toList, .bearer⟩ := by
  constructor
  · rw [(claim_C3_auth_resolution .auto "Aladdin".toList "open sesame".toList
      (some "ignored".toList) none (by decide) (by decide)).1]
    rfl
  · rw [(claim_C3_auth_resolution .auto "x".toList "tok123".toList none none
      (by decide) (by decide)).2]
    rfl

-- ## CQL construction (`escapeCqlString`, `searchPages`) -----------------------

/-- First pass of `escapeCqlString`: `.replace(/\\/g, "\\\\")`. -/
def replaceBackslashes : List Char → List Char
  | [] => []
  | c :: cs =>
    if c = '\\' then '\\' :: '\\' :: replaceBackslashes cs
    else c :: replaceBackslashes cs

/-- Second pass of `escapeCqlString`: `.replace(/"/g, &apos;\\"&apos;)` on the result. -/
def replaceQuotes : List Char → List Char
  | [] => []
  | c :: cs =>
    if c = '"' then '\\' :: '"' :: replaceQuotes cs
    else c :: replaceQuotes cs

def escapeCqlString (l : List Char) : List Char := replaceQuotes (replaceBackslashes l)

/-- The spec's wording: each backslash and each double quote of the literal is
escaped with a backslash, character by character. -/
def escapeCqlSpec : List Char → List Char
  | [] => []
  | c :: cs =>
    (if c = '\\' then ['\\', '\\'] else if c = '"' then ['\\', '"'] else [c]) ++
      escapeCqlSpec cs

theorem replaceBackslashes_cons (c : Char) (cs : List Char) :
    replaceBackslashes (c :: cs) =
      (if c = '\\' then ['\\', '\\'] else [c]) ++ replaceBackslashes cs := by
  by_cases h : c = '\\' <;> simp [replaceBackslashes, h]

theorem replaceQuotes_cons (c : Char) (cs : List Char) :
    replaceQuotes (c :: cs) =
      (if c = '"' then ['\\', '"'] else [c]) ++ replaceQuotes cs := by
  by_cases h : c = '"' <;> simp [replaceQuotes, h]

theorem replaceQuotes_append (a b : List Char) :
    replaceQuotes (a ++ b) = replaceQuotes a ++ replaceQuotes b := by
  induction a with
  | nil => rfl
  | cons c cs ih =>
    rw [List.cons_append, replaceQuotes_cons, replaceQuotes_cons, ih, List.append_assoc]

theorem escapeCql_eq_spec (l : List Char) : escapeCqlString l = escapeCqlSpec l := by
  induction l with
  | nil => rfl
  | cons c cs ih =>
    show replaceQuotes (replaceBackslashes (c :: cs)) = escapeCqlSpec (c :: cs)
    rw [replaceBackslashes_cons, replaceQuotes_append]
    have ih' : replaceQuotes (replaceBackslashes cs) = escapeCqlSpec cs := ih
    rw [ih']
    by_cases h1 : c = '\\'
    · subst h1
      rfl
    · by_cases h2 : c = '"'
      · subst h2
        rfl
      · simp [escapeCqlSpec, replaceQuotes, replaceQuotes_cons, h1, h2]

/-- JavaScript `String.prototype.trim`. -/
def jsTrim (l : List Char) : List Char :=
  ((l.dropWhile isJsWS).reverse.dropWhile isJsWS).reverse

/-- `cqlParts.join(" AND ")`. -/
def joinAnd : List (List Char) → List Char
  | [] => []
  | [p] => p
  | p :: q :: rest => p ++ (" AND ".toList ++ joinAnd (q :: rest))

/-- The `cqlParts` array built by `searchPages` in `src/confluence.ts`:
`type=page` always; an exact space filter when `spaceKey || defaultSpace` is
truthy; a title-or-text disjunct when the trimmed query is non-empty. -/
def searchPagesCqlParts (query : List Char) (spaceKey defaultSpace : Option (List Char)) :
    List (List Char) :=
  let space := if truthy spaceKey then spaceKey else defaultSpace
  let parts1 := ["type=page".toList]
  let parts2 :=
    if truthy space then
      parts1 ++ ["space=\"".toList ++ escapeCqlString (space.getD []) ++ ['"']]
    else parts1
  let tq := jsTrim query
  if tq = [] then parts2
  else
    parts2 ++ ["(title~\"".toList ++ escapeCqlString tq ++ "\" OR text~\"".toList ++
      escapeCqlString tq ++ "\")".toList]

/-- The CQL expression sent by `searchPages`. -/
def searchPagesCql (query : List Char) (spaceKey defaultSpace : Option (List Char)) :
    List Char :=
  joinAnd (searchPagesCqlParts query spaceKey defaultSpace)

theorem containsSub_joinAnd (p : List Char) (parts : List (List Char))
    (h : p ∈ parts) : containsSub p (joinAnd parts) = true := by
  induction parts with
  | nil => cases h
  | cons q rest ih =>
    cases rest with
    | nil =>
      rcases List.mem_singleton.mp h with rfl
      exact containsSub_of_pref _ _ (isPrefOf_refl p)
    | cons r rest2 =>
      rcases List.mem_cons.mp h with rfl | hmem
      · exact containsSub_self_append _ _
      · exact containsSub_append_left _ _ _
          (containsSub_append_left _ _ _ (ih hmem))

/-- C4: the query expression always contains the conjunct `type=page`; when a
space (explicit or default) is given it contains the exact-match space filter
with the escaped literal; when the trimmed query is non-empty it contains the
title-or-text disjunct with the escaped literal; `escapeCqlString` escapes
exactly the backslashes and double quotes of the literal; and the spec's
concrete example evaluates as stated. -/
theorem claim_C4_search_cql (query : List Char) (sk ds : Option (List Char)) :
    containsSub "type=page".toList (searchPagesCql query sk ds) = true ∧
    (∀ s, (if truthy sk then sk else ds) = some s → s ≠ [] →
      containsSub ("space=\"".toList ++ escapeCqlString s ++ ['"'])
        (searchPagesCql query sk ds) = true) ∧
    (jsTrim query ≠ [] →
      containsSub ("(title~\"".toList ++ escapeCqlString (jsTrim query) ++
          "\" OR text~\"".toList ++ escapeCqlString (jsTrim query) ++ "\")".toList)
        (searchPagesCql query sk ds) = true) ∧
    (∀ s, escapeCqlString s = escapeCqlSpec s) ∧
    searchPagesCql "a\"b".toList (some "SP".toList) none =
      "type=page AND space=\"SP\" AND (title~\"a\\\"b\" OR text~\"a\\\"b\")".toList := by
  refine ⟨?_, ?_, ?_, escapeCql_eq_spec, by rfl⟩
  · show containsSub _ (joinAnd (searchPagesCqlParts query sk ds)) = true
    apply containsSub_joinAnd
    simp only [searchPagesCqlParts]
    split_ifs <;> simp
  · intro s hs hne
    show containsSub _ (joinAnd (searchPagesCqlParts query sk ds)) = true
    apply containsSub_joinAnd
    have ht : truthy (some s) = true := by
      cases s with
      | nil => exact absurd rfl hne
      | cons c cs => simp [truthy]
    simp only [searchPagesCqlParts]
    rw [hs, ht]
    split_ifs <;> simp_all
  · intro htq
    show containsSub _ (joinAnd (searchPagesCqlParts query sk ds)) = true
    apply containsSub_joinAnd
    simp only [searchPagesCqlParts]
    split_ifs <;> simp_all

/-- Concrete instantiation of C4 at the spec's example
`searchPages("a\"b", "SP")`. -/
theorem claim_C4_search_cql_witness :
    containsSub "type=page".toList
      (searchPagesCql "a\"b".toList (some "SP".toList) none) = true ∧
    containsSub "space=\"SP\"".toList
      (searchPagesCql "a\"b".toList (some "SP".toList) none) = true ∧
    containsSub "(title~\"a\\\"b\" OR text~\"a\\\"b\")".toList
      (searchPagesCql "a\"b".toList (some "SP".toList) none) = true := by
  have h := claim_C4_search_cql "a\"b".toList (some "SP".toList) none
  exact ⟨h.1, h.2.1 "SP".toList (by decide) (by decide),
    h.2.2.1 (by decide)⟩

-- ## Content data model and page records ---------------------------------------

structure VersionObj where
  number : Option Nat
deriving DecidableEq

structure SpaceObj where
  key : Option (List Char)
deriving DecidableEq

structure StorageObj where
  value : Option (List Char)
deriving DecidableEq

structure BodyObj where
  storage : Option StorageObj
deriving DecidableEq

structure LinksObj where
  webui : Option (List Char)
deriving DecidableEq

/-- The `ContentApiResult` response shape from `src/confluence.ts`; every
field is optional, as in the TypeScript interface. -/
structure ContentApiResult where
  id : Option (List Char)
  type : Option (List Char)
  title : Option (List Char)
  space : Option SpaceObj
  version : Option VersionObj
  body : Option BodyObj
  links : Option LinksObj
deriving DecidableEq

/-- The unified `ConfluencePage` record. -/
structure ConfluencePage where
  id : List Char
  type : List Char
  title : List Char
  spaceKey : List Char
  url : List Char
  version : Option Nat
deriving DecidableEq

def endsWithList (suffix l : List Char) : Bool := isPrefOf suffix.reverse l.reverse

/-- `normalizeSiteBaseUrl`: strip trailing slashes; in cloud mode also strip a
trailing `/wiki` segment. -/
def normalizeSiteBaseUrl (baseUrl : List Char) (mode : ConfluenceMode) : List Char :=
  let trimmed := (baseUrl.reverse.dropWhile (fun c => c = '/')).reverse
  match mode with
  | .cloud =>
    if endsWithList "/wiki".toList trimmed then trimmed.take (trimmed.length - 5)
    else trimmed
  | .server => trimmed

/-- The URL-related state of a constructed `ConfluenceClient`. -/
structure ClientCtx where
  mode : ConfluenceMode
  siteBaseUrl : List Char
  uiBaseUrl : List Char
deriving DecidableEq

def mkClientCtx (baseUrl : List Char) (mode : ConfluenceMode) : ClientCtx :=
  let site := normalizeSiteBaseUrl baseUrl mode
  match mode with
  | .cloud => ⟨mode, site, site ++ "/wiki".toList⟩
  | .server => ⟨mode, site, site⟩

/-- Characters `encodeURIComponent` leaves unescaped:
`A-Z a-z 0-9 - _ . ! ~ * ( )` and the apostrophe (code 39). -/
def isUriUnreserved (c : Char) : Bool :=
  let n := c.toNat
  (65 ≤ n && n ≤ 90) || (97 ≤ n && n ≤ 122) || (48 ≤ n && n ≤ 57) ||
    n = 45 || n = 95 || n = 46 || n = 33 || n = 126 || n = 42 || n = 39 ||
    n = 40 || n = 41

def hexDigitUpper (n : Nat) : Char :=
  if n < 10 then Char.ofNat (48 + n) else Char.ofNat (55 + n)

def percentEncodeByte (b : Nat) : List Char :=
  ['%', hexDigitUpper (b / 16), hexDigitUpper (b % 16)]

def encodeURIComponent (l : List Char) : List Char :=
  (l.map (fun c =>
    if isUriUnreserved c then [c]
    else ((utf8Char c).map percentEncodeByte).flatten)).flatten

/-- The constructed view-by-id path used when no web-UI link is provided. -/
def viewPageFallback (ctx : ClientCtx) (pageId : List Char) : List Char :=
  match ctx.mode with
  | .cloud => "/wiki/pages/viewpage.action?pageId=".toList ++ encodeURIComponent pageId
  | .server => "/pages/viewpage.action?pageId=".toList ++ encodeURIComponent pageId

/-- `/^https?:\/\//i`. -/
def isAbsoluteUrl (w : List Char) : Bool :=
  isPrefOf "http://".toList (w.map lowerChar) ||
    isPrefOf "https://".toList (w.map lowerChar)

/-- Shallow embedding of `resolvePageUrl` from `src/confluence.ts`.  Note the
JavaScript `if (webui)` check is truthiness, so an empty-string link also takes
the fallback branch. -/
def resolvePageUrl (ctx : ClientCtx) (webui : Option (List Char)) (pageId : List Char) :
    List Char :=
  match webui with
  | some w =>
    if w.isEmpty then ctx.siteBaseUrl ++ viewPageFallback ctx pageId
    else if isAbsoluteUrl w then w
    else
      let path := if isPrefOf "/".toList w then w else '/' :: w
      match ctx.mode with
      | .cloud =>
        if isPrefOf "/wiki/".toList path then ctx.siteBaseUrl ++ path
        else ctx.uiBaseUrl ++ path
      | .server => ctx.siteBaseUrl ++ path
  | none => ctx.siteBaseUrl ++ viewPageFallback ctx pageId

/-- Shallow embedding of `toPageRecord` from `src/confluence.ts`. -/
def toPageRecord (ctx : ClientCtx) (item : ContentApiResult) : ConfluencePage :=
  let pageId := item.id.getD []
  { id := pageId
    type := item.type.getD "page".toList
    title := item.title.getD []
    spaceKey := match item.space with | some sp => sp.key.getD [] | none => []
    url := resolvePageUrl ctx (match item.links with | some lk => lk.webui | none => none)
      pageId
    version := match item.version with | some v => v.number | none => none }

theorem isEmptyFalseOfNeNil {w : List Char} (h : w ≠ []) : w.isEmpty = false := by
  cases w with
  | nil => exact absurd rfl h
  | cons c cs => rfl

/-- C7 is refuted by the code: `toPageRecord` stringifies `item.id ?? ""`, so a
successful upstream response that omits `id` produces a Page whose `id` is the
empty string, not a non-empty one. -/
theorem claim_C7_counterexample :
    (toPageRecord (mkClientCtx "https://conf.example.com".toList .server)
      ⟨none, none, none, none, none, none, none⟩).id = [] := by
  rfl

/-- C7 as amended: the produced `id` equals the upstream id when present (in
particular it is non-empty whenever the upstream id is non-empty) and defaults
to the empty string when the upstream omits it; `title` and `spaceKey` are
always present, defaulting to the empty string. -/
theorem claim_C7_page_fields (ctx : ClientCtx) (item : ContentApiResult) :
    (∀ s, item.id = some s → (toPageRecord ctx item).id = s) ∧
    (item.id = none → (toPageRecord ctx item).id = []) ∧
    (∀ s, item.id = some s → s ≠ [] → (toPageRecord ctx item).id ≠ []) ∧
    (toPageRecord ctx item).title = item.title.getD [] ∧
    (toPageRecord ctx item).spaceKey =
      (match item.space with | some sp => sp.key.getD [] | none => []) := by
  refine ⟨?_, ?_, ?_, rfl, rfl⟩
  · intro s h
    simp [toPageRecord, h]
  · intro h
    simp [toPageRecord, h]
  · intro s h hne
    simp [toPageRecord, h, hne]

/-- Concrete instantiation of C7 (amended): upstream id `"123"`, no title and
no space give a Page with id `"123"`, empty title and empty space key. -/
theorem claim_C7_page_fields_witness :
    (toPageRecord (mkClientCtx "https://conf.example.com".toList .server)
      ⟨some "123".toList, none, none, none, none, none, none⟩).id = "123".toList ∧
    (toPageRecord (mkClientCtx "https://conf.example.com".toList .server)
      ⟨some "123".toList, none, none, none, none, none, none⟩).title = [] ∧
    (toPageRecord (mkClientCtx "https://conf.example.com".toList .server)
      ⟨some "123".toList, none, none, none, none, none, none⟩).spaceKey = [] := by
  have h := claim_C7_page_fields (mkClientCtx "https://conf.example.com".toList .server)
    ⟨some "123".toList, none, none, none, none, none, none⟩
  exact ⟨h.1 "123".toList rfl, by rw [h.2.2.2.1]; rfl, by rw [h.2.2.2.2]⟩

-- ## updatePage (read-modify-write) --------------------------------------------

/-- Caller-supplied parameters of `updatePage` (note: there is no version
field; the caller cannot supply a version). -/
structure UpdateParams where
  pageId : List Char
  title : Option (List Char)
  bodyStorageValue : List Char
  minorEdit : Option Bool
  message : Option (List Char)
deriving DecidableEq

/-- The JSON payload `updatePage` PUTs to the content endpoint. -/
structure UpdateBody where
  id : List Char
  type : List Char
  title : List Char
  versionNumber : Nat
  versionMinorEdit : Bool
  versionMessage : Option (List Char)
  bodyStorageValue : List Char
  spaceKey : Option (List Char)
deriving DecidableEq

/-- Shallow embedding of `updatePage` from `src/confluence.ts`: `current` is
the response of the preceding `getPage(pageId, "version,space")` fetch; the
payload uses `(current.version ?? 0) + 1` and `params.title ?? current.title`.
The spread `...(params.message ? { message } : {})` drops a falsy (absent or
empty) message, and `...(current.spaceKey ? ... : {})` drops an empty space
key. -/
def updatePageBody (ctx : ClientCtx) (params : UpdateParams)
    (current : ContentApiResult) : UpdateBody :=
  let cur := toPageRecord ctx current
  { id := params.pageId
    type := "page".toList
    title := match params.title with | some t => t | none => cur.title
    versionNumber := cur.version.getD 0 + 1
    versionMinorEdit := params.minorEdit.getD true
    versionMessage := match params.message with
      | some m => if m = [] then none else some m
      | none => none
    bodyStorageValue := params.bodyStorageValue
    spaceKey := if cur.spaceKey = [] then none else some cur.spaceKey }

/-- C5: the PUT payload of `updatePage` carries version number
`fetched current version + 1` (the caller cannot supply a version at all), and
the provided title or, when none is provided, the fetched current title. -/
theorem claim_C5_update_version_title (ctx : ClientCtx) (params : UpdateParams)
    (current : ContentApiResult) :
    (updatePageBody ctx params current).versionNumber =
      (toPageRecord ctx current).version.getD 0 + 1 ∧
    (updatePageBody ctx params current).title =
      params.title.getD (toPageRecord ctx current).title ∧
    (∀ n, current.version = some ⟨some n⟩ →
      (updatePageBody ctx params current).versionNumber = n + 1) := by
  refine ⟨rfl, ?_, ?_⟩
  · cases h : params.title <;> simp [updatePageBody, h]
  · intro n h
    simp [updatePageBody, toPageRecord, h]

/-- Concrete instantiation of C5: a page currently at version 3 is updated
with version number 4, and an omitted title falls back to the fetched one. -/
theorem claim_C5_update_version_title_witness :
    (updatePageBody (mkClientCtx "https://conf.example.com".toList .server)
      ⟨"42".toList, none, "<p>new</p>".toList, none, none⟩
      ⟨some "42".toList, none, some "Old title".toList, none, some ⟨some 3⟩, none, none⟩
      ).versionNumber = 4 ∧
    (updatePageBody (mkClientCtx "https://conf.example.com".toList .server)
      ⟨"42".toList, none, "<p>new</p>".toList, none, none⟩
      ⟨some "42".toList, none, some "Old title".toList, none, some ⟨some 3⟩, none, none⟩
      ).title = "Old title".toList := by
  have h := claim_C5_update_version_title
    (mkClientCtx "https://conf.example.com".toList .server)
    ⟨"42".toList, none, "<p>new</p>".toList, none, none⟩
    ⟨some "42".toList, none, some "Old title".toList, none, some ⟨some 3⟩, none, none⟩
  exact ⟨h.2.2 3 rfl, by rw [h.2.1]; rfl⟩

/-- C10: when the fetched current page carries no version number, `updatePage`
does not fail; it treats the current version as 0 and sends version 1. -/
theorem claim_C10_missing_version (ctx : ClientCtx) (params : UpdateParams)
    (current : ContentApiResult)
    (h : (toPageRecord ctx current).version = none) :
    (updatePageBody ctx params current).versionNumber = 1 := by
  have h1 : (updatePageBody ctx params current).versionNumber =
      (toPageRecord ctx current).version.getD 0 + 1 := rfl
  rw [h1, h]
  rfl

/-- Concrete instantiation of C10: the upstream omitted `version` entirely. -/
theorem claim_C10_missing_version_witness :
    (updatePageBody (mkClientCtx "https://conf.example.com".toList .server)
      ⟨"42".toList, none, "<p>new</p>".toList, none, none⟩
      ⟨some "42".toList, none, some "Old title".toList, none, none, none, none⟩
      ).versionNumber = 1 :=
  claim_C10_missing_version (mkClientCtx "https://conf.example.com".toList .server)
    ⟨"42".toList, none, "<p>new</p>".toList, none, none⟩
    ⟨some "42".toList, none, some "Old title".toList, none, none, none, none⟩ rfl

-- ## getCurrentUser ------------------------------------------------------------

/-- The identity endpoint's response shape. -/
structure UserApiResult where
  accountId : Option (List Char)
  username : Option (List Char)
  userKey : Option (List Char)
  displayName : Option (List Char)
  email : Option (List Char)
deriving DecidableEq

structure CurrentUser where
  id : List Char
  accountId : Option (List Char)
  username : Option (List Char)
  userKey : Option (List Char)
  displayName : List Char
  email : Option (List Char)
deriving DecidableEq

/-- Shallow embedding of the response mapping in `getCurrentUser`
(`src/confluence.ts`): `id` is `accountId ?? userKey ?? username ?? ""`, a
nullish-coalescing chain. -/
def getCurrentUserModel (json : UserApiResult) : CurrentUser :=
  { id := json.accountId.getD (json.userKey.getD (json.username.getD []))
    accountId := json.accountId
    username := json.username
    userKey := json.userKey
    displayName := json.displayName.getD []
    email := json.email }

/-- The claim's wording: the first non-empty value among accountId, userKey,
username, else the empty string. -/
def firstNonEmptyId (j : UserApiResult) : List Char :=
  (([j.accountId.getD [], j.userKey.getD [], j.username.getD []].filter
    (fun v => !v.isEmpty)).headD [])

/-- C6 is refuted by the code: `??` falls through only on absent fields, not on
empty ones, so a response with `accountId = ""` and `userKey = "k"` yields
`id = ""` although the first non-empty field is `"k"`. -/
theorem claim_C6_counterexample :
    (getCurrentUserModel ⟨some [], none, some "k".toList, none, none⟩).id = [] ∧
    firstNonEmptyId ⟨some [], none, some "k".toList, none, none⟩ = "k".toList ∧
    (getCurrentUserModel ⟨some [], none, some "k".toList, none, none⟩).id ≠
      firstNonEmptyId ⟨some [], none, some "k".toList, none, none⟩ := by
  refine ⟨rfl, rfl, by decide⟩

/-- C6 as amended: the unified `id` is the first PRESENT (possibly empty)
value among accountId, userKey, username, in that order, and the empty string
when all three are absent. -/
theorem claim_C6_user_id (j : UserApiResult) :
    (∀ a, j.accountId = some a → (getCurrentUserModel j).id = a) ∧
    (j.accountId = none → ∀ k, j.userKey = some k → (getCurrentUserModel j).id = k) ∧
    (j.accountId = none → j.userKey = none → ∀ u, j.username = some u →
      (getCurrentUserModel j).id = u) ∧
    (j.accountId = none → j.userKey = none → j.username = none →
      (getCurrentUserModel j).id = []) := by
  refine ⟨?_, ?_, ?_, ?_⟩
  · intro a h
    simp [getCurrentUserModel, h]
  · intro h1 k h2
    simp [getCurrentUserModel, h1, h2]
  · intro h1 h2 u h3
    simp [getCurrentUserModel, h1, h2, h3]
  · intro h1 h2 h3
    simp [getCurrentUserModel, h1, h2, h3]

/-- Concrete instantiation of C6 (amended): absent accountId and present
userKey resolve the id to the userKey. -/
theorem claim_C6_user_id_witness :
    (getCurrentUserModel ⟨none, none, some "key1".toList, none, none⟩).id =
      "key1".toList :=
  (claim_C6_user_id ⟨none, none, some "key1".toList, none, none⟩).2.1 rfl
    "key1".toList rfl

-- ## Page URL resolution -------------------------------------------------------

/-- C8: an absolute `http(s)` web-UI link is used as-is in either mode; a
relative link in server mode resolves to the normalized base URL followed by
the (slash-normalized) path; in cloud mode a `/wiki/`-prefixed relative link
joins the site base directly (no double `/wiki`), while a slash-prefixed link
without the `/wiki/` prefix joins the `/wiki` UI base; and with no link at all
a mode-specific view-by-id URL is built from the page id. -/
theorem claim_C8_url_resolution (baseUrl pageId : List Char) :
    (∀ w mode, w ≠ [] → isAbsoluteUrl w = true →
      resolvePageUrl (mkClientCtx baseUrl mode) (some w) pageId = w) ∧
    (∀ w, w ≠ [] → isAbsoluteUrl w = false → isPrefOf "/".toList w = true →
      resolvePageUrl (mkClientCtx baseUrl .server) (some w) pageId =
        (mkClientCtx baseUrl .server).siteBaseUrl ++ w) ∧
    (∀ w, w ≠ [] → isAbsoluteUrl w = false → isPrefOf "/".toList w = false →
      resolvePageUrl (mkClientCtx baseUrl .server) (some w) pageId =
        (mkClientCtx baseUrl .server).siteBaseUrl ++ '/' :: w) ∧
    (∀ w, w ≠ [] → isAbsoluteUrl w = false → isPrefOf "/wiki/".toList w = true →
      isPrefOf "/".toList w = true →
      resolvePageUrl (mkClientCtx baseUrl .cloud) (some w) pageId =
        (mkClientCtx baseUrl .cloud).siteBaseUrl ++ w) ∧
    (∀ w, w ≠ [] → isAbsoluteUrl w = false → isPrefOf "/wiki/".toList w = false →
      isPrefOf "/".toList w = true →
      resolvePageUrl (mkClientCtx baseUrl .cloud) (some w) pageId =
        (mkClientCtx baseUrl .cloud).uiBaseUrl ++ w) ∧
    (∀ mode, resolvePageUrl (mkClientCtx baseUrl mode) none pageId =
      (mkClientCtx baseUrl mode).siteBaseUrl ++
        viewPageFallback (mkClientCtx baseUrl mode) pageId) := by
  refine ⟨?_, ?_, ?_, ?_, ?_, fun mode => rfl⟩
  · intro w mode hne habs
    simp [resolvePageUrl, isEmptyFalseOfNeNil hne, habs]
  · intro w hne habs hsl
    have hm : (mkClientCtx baseUrl .server).mode = .server := rfl
    have hsl' : isPrefOf ['/'] w = true := hsl
    simp [resolvePageUrl, isEmptyFalseOfNeNil hne, habs, hsl', hm]
  · intro w hne habs hsl
    have hm : (mkClientCtx baseUrl .server).mode = .server := rfl
    have hsl' : isPrefOf ['/'] w = false := hsl
    simp [resolvePageUrl, isEmptyFalseOfNeNil hne, habs, hsl', hm]
  · intro w hne habs hwiki hsl
    have hm : (mkClientCtx baseUrl .cloud).mode = .cloud := rfl
    have hsl' : isPrefOf ['/'] w = true := hsl
    have hwiki' : isPrefOf ['/', 'w', 'i', 'k', 'i', '/'] w = true := hwiki
    simp [resolvePageUrl, isEmptyFalseOfNeNil hne, habs, hsl', hwiki', hm]
  · intro w hne habs hwiki hsl
    have hm : (mkClientCtx baseUrl .cloud).mode = .cloud := rfl
    have hsl' : isPrefOf ['/'] w = true := hsl
    have hwiki' : isPrefOf ['/', 'w', 'i', 'k', 'i', '/'] w = false := hwiki
    simp [resolvePageUrl, isEmptyFalseOfNeNil hne, habs, hsl', hwiki', hm]

/-- Concrete instantiation of C8, including the spec's example: the relative
link `/pages/viewpage.action?pageId=5` in server mode resolves to
`<baseUrl>/pages/viewpage.action?pageId=5`, and in cloud mode a
`/wiki/`-prefixed link does not get a second `/wiki`. -/
theorem claim_C8_url_resolution_witness :
    resolvePageUrl (mkClientCtx "https://conf.example.com".toList .server)
      (some "/pages/viewpage.action?pageId=5".toList) "5".toList =
      "https://conf.example.com/pages/viewpage.action?pageId=5".toList ∧
    resolvePageUrl (mkClientCtx "https://acme.atlassian.net/wiki".toList .cloud)
      (some "/wiki/spaces/SP/pages/5".toList) "5".toList =
      "https://acme.atlassian.net/wiki/spaces/SP/pages/5".toList ∧
    resolvePageUrl (mkClientCtx "https://conf.example.com".toList .server)
      (some "https://other.example.com/x".toList) "5".toList =
      "https://other.example.com/x".toList := by
  have h := claim_C8_url_resolution "https://conf.example.com".toList "5".toList
  have h2 := claim_C8_url_resolution "https://acme.atlassian.net/wiki".toList "5".toList
  refine ⟨?_, ?_, ?_⟩
  · rw [h.2.1 "/pages/viewpage.action?pageId=5".toList (by decide) (by decide) (by decide)]
    rfl
  · rw [(h2.2.2.2.1) "/wiki/spaces/SP/pages/5".toList (by decide) (by decide) (by decide)
      (by decide)]
    rfl
  · exact h.1 "https://other.example.com/x".toList .server (by decide) (by decide)

-- ## Tool registry (`src/tools.ts`) --------------------------------------------

/-- JSON values, as produced by the client operations. -/
inductive Json where
  | null
  | bool (b : Bool)
  | num (n : Int)
  | str (s : List Char)
  | arr (xs : List Json)
  | obj (fields : List (List Char × Json))

def hexDigitLower (n : Nat) : Char :=
  if n < 10 then Char.ofNat (48 + n) else Char.ofNat (87 + n)

def jsonEscChar (c : Char) : List Char :=
  if c = '"' then ['\\', '"']
  else if c = '\\' then ['\\', '\\']
  else if c.toNat = 8 then ['\\', 'b']
  else if c.toNat = 9 then ['\\', 't']
  else if c.toNat = 10 then ['\\', 'n']
  else if c.toNat = 12 then ['\\', 'f']
  else if c.toNat = 13 then ['\\', 'r']
  else if c.toNat < 32 then
    ['\\', 'u', '0', '0', hexDigitLower (c.toNat / 16), hexDigitLower (c.toNat % 16)]
  else [c]

def jsonQuote (s : List Char) : List Char :=
  '"' :: (s.map jsonEscChar).flatten ++ ['"']

def intToText (n : Int) : List Char :=
  if n < 0 then '-' :: natToText n.natAbs else natToText n.natAbs

def nSpaces (n : Nat) : List Char := List.replicate n ' '

def lbrace : Char := '\x7b'

def rbrace : Char := '\x7d'

mutual

/-- `JSON.stringify(v, null, 2)` at indentation level `ind`. -/
def stringifyJson (ind : Nat) : Json → List Char
  | .null => "null".toList
  | .bool b => if b then "true".toList else "false".toList
  | .num n => intToText n
  | .str s => jsonQuote s
  | .arr [] => "[]".toList
  | .arr (x :: xs) =>
    '[' :: '\n' :: (stringifyArr ind (x :: xs) ++ '\n' :: (nSpaces ind ++ [']']))
  | .obj [] => [lbrace, rbrace]
  | .obj (f :: fs) =>
    lbrace :: '\n' :: (stringifyObj ind (f :: fs) ++ '\n' :: (nSpaces ind ++ [rbrace]))

def stringifyArr (ind : Nat) : List Json → List Char
  | [] => []
  | [x] => nSpaces (ind + 2) ++ stringifyJson (ind + 2) x
  | x :: y :: rest =>
    nSpaces (ind + 2) ++ stringifyJson (ind + 2) x ++
      ',' :: '\n' :: stringifyArr ind (y :: rest)

def stringifyObj (ind : Nat) : List (List Char × Json) → List Char
  | [] => []
  | [(k, v)] => nSpaces (ind + 2) ++ jsonQuote k ++ ':' :: ' ' :: stringifyJson (ind + 2) v
  | (k, v) :: g :: rest =>
    nSpaces (ind + 2) ++ jsonQuote k ++ ':' :: ' ' :: stringifyJson (ind + 2) v ++
      ',' :: '\n' :: stringifyObj ind (g :: rest)

end

def jsonStringify (j : Json) : List Char := stringifyJson 0 j

structure ContentItem where
  type : List Char
  text : List Char

/-- The uniform result envelope of a tool invocation (`isError` is absent on
success). -/
structure ToolEnvelope where
  isError : Option Bool
  content : List ContentItem

/-- A value caught by the tool boundary's `catch`: either an `Error` instance
(whose `message` is surfaced) or any other thrown value (surfaced via
`String(error)`). -/
inductive JsError where
  | errObj (message : List Char)
  | otherValue (stringRep : List Char)

def errorText : JsError → List Char
  | .errObj m => m
  | .otherValue s => s

/-- `jsonContent` from `src/tools.ts`. -/
def jsonContent (payload : Json) : ToolEnvelope :=
  ⟨none, [⟨"text".toList, jsonStringify payload⟩]⟩

/-- `errorContent` from `src/tools.ts`. -/
def errorContent (e : JsError) : ToolEnvelope :=
  ⟨some true, [⟨"text".toList, errorText e⟩]⟩

/-- The `try/catch` body shared by every tool registered in `registerTools`:
the underlying client operation either returns a payload or throws, and the
handler always returns an envelope. -/
def runToolHandler (outcome : Except JsError Json) : ToolEnvelope :=
  match outcome with
  | .ok payload => jsonContent payload
  | .error e => errorContent e

structure ToolDef where
  name : List Char
  handler : Except JsError Json → ToolEnvelope

/-- The six tools registered by `registerTools` in `src/tools.ts`; each wraps
its client call in the same try/catch envelope. -/
def registeredTools : List ToolDef :=
  [⟨"confluence_get_current_user".toList, runToolHandler⟩,
   ⟨"confluence_search_pages".toList, runToolHandler⟩,
   ⟨"confluence_execute_cql_search".toList, runToolHandler⟩,
   ⟨"confluence_get_page".toList, runToolHandler⟩,
   ⟨"confluence_create_page".toList, runToolHandler⟩,
   ⟨"confluence_update_page".toList, runToolHandler⟩]

/-- C9: every registered tool handler is a total function of its operation's
outcome — it never throws and never terminates the process; a successful
operation yields the success envelope with the JSON-serialized payload, and
any thrown error yields the error envelope carrying that error's message
text. -/
theorem claim_C9_tool_boundary (t : ToolDef) (ht : t ∈ registeredTools)
    (outcome : Except JsError Json) :
    (∀ p, outcome = .ok p →
      t.handler outcome = ⟨none, [⟨"text".toList, jsonStringify p⟩]⟩) ∧
    (∀ e, outcome = .error e →
      t.handler outcome = ⟨some true, [⟨"text".toList, errorText e⟩]⟩) := by
  constructor
  · intro p hp
    subst hp
    fin_cases ht <;> rfl
  · intro e he
    subst he
    fin_cases ht <;> rfl

/-- Concrete instantiation of C9 on the first registered tool: a successful
`null` payload yields the success envelope, and a thrown `Error("boom")`
yields the error envelope with text `boom`. -/
theorem claim_C9_tool_boundary_witness :
    (ToolDef.mk "confluence_get_current_user".toList runToolHandler).handler
        (.ok .null) = ⟨none, [⟨"text".toList, "null".toList⟩]⟩ ∧
    (ToolDef.mk "confluence_get_current_user".toList runToolHandler).handler
        (.error (.errObj "boom".toList)) =
      ⟨some true, [⟨"text".toList, "boom".toList⟩]⟩ := by
  constructor
  · have h := claim_C9_tool_boundary
      ⟨"confluence_get_current_user".toList, runToolHandler⟩
      (List.mem_cons_self _ _) (.ok .null)
    exact h.1 .null rfl
  · have h := claim_C9_tool_boundary
      ⟨"confluence_get_current_user".toList, runToolHandler⟩
      (List.mem_cons_self _ _) (.error (.errObj "boom".toList))
    exact h.2 (.errObj "boom".toList) rfl
